import Mathlib

/-!
Verification of the schema-to-defaults materializer
(`autoware_system_designer/script/parameter_process.py`).

The Python code works on JSON trees produced by `json.load`.  We embed the
relevant functions shallowly: JSON values become the inductive `JVal`
(objects are insertion-ordered association lists, as Python dicts are),
the filesystem of external schema documents becomes an association list
from path strings to parsed documents, and the unbounded recursion of
`_resolve_refs` is made total with an explicit fuel argument (`none`
means the computation did not finish within the given fuel; the source
has no cycle guard).
-/

namespace ParameterProcess

/-- A JSON value as produced by `json.load`: an insertion-ordered object,
an array, a string, a number (the defaults in the claims are integers),
a boolean, or null. -/
inductive JVal : Type where
  | obj : List (String × JVal) → JVal
  | arr : List JVal → JVal
  | str : String → JVal
  | num : Int → JVal
  | boolean : Bool → JVal
  | null : JVal

/-- Python `s.startswith(pre)`, on the underlying character list. -/
def pyStartswith (s pre : String) : Bool :=
  pre.data.isPrefixOf s.data

/-- Python `s.endswith(suf)`. -/
def pyEndswith (s suf : String) : Bool :=
  suf.data.isSuffixOf s.data

/-- Substring scan: does `pat` occur contiguously in the list? -/
def listHasInfix (pat : List Char) : List Char → Bool
  | [] => pat.isEmpty
  | c :: rest => pat.isPrefixOf (c :: rest) || listHasInfix pat rest

/-- Python `sub in s` (substring containment). -/
def pyContains (s sub : String) : Bool :=
  listHasInfix sub.data s.data

/-- Python `s.replace(pat, rep)` for a nonempty pattern: leftmost-first,
non-overlapping.  The extra `Nat` argument keeps the recursion structural;
`pyReplace` supplies the length of the scanned list, which is enough fuel
for the scan to finish. -/
def listReplaceFuel (pat rep : List Char) : Nat → List Char → List Char
  | 0, l => l
  | _ + 1, [] => []
  | n + 1, c :: rest =>
    if pat.isPrefixOf (c :: rest) && !pat.isEmpty then
      rep ++ listReplaceFuel pat rep n ((c :: rest).drop pat.length)
    else
      c :: listReplaceFuel pat rep n rest

/-- Python `s.replace(pat, rep)`. -/
def pyReplace (s pat rep : String) : String :=
  ⟨listReplaceFuel pat.data rep.data s.data.length s.data⟩

/-- Python `s.partition("#")` reduced to the two components the code
uses: the text before the first `#` and the text after it.  When no `#`
occurs the second component is empty, which the code cannot distinguish
from a trailing `#` because it only tests the fragment for truthiness. -/
def partitionHash : List Char → List Char × List Char
  | [] => ([], [])
  | c :: rest =>
    if c = '#' then ([], rest)
    else
      let p := partitionHash rest
      (c :: p.1, p.2)

/-- First-match association-list lookup: Python dict `d[k]` / `k in d`
(keys of dicts coming from `json.load` are unique, so first match is the
only match). -/
def jlookup : List (String × JVal) → String → Option JVal
  | [], _ => none
  | (k, v) :: rest, key => if k = key then some v else jlookup rest key

/-- Python `d[k] = v` on an insertion-ordered dict: replace the value in
place if the key is present, otherwise append the pair at the end. -/
def dictSet : List (String × JVal) → String → JVal → List (String × JVal)
  | [], k, v => [(k, v)]
  | (k', v') :: rest, k, v =>
    if k' = k then (k', v) :: rest else (k', v') :: dictSet rest k v

/-- The merge loop of `_resolve_refs` (lines 98-104 and 126-132):
`resolved = resolved.copy()`, then every key of the referencing node
except `$ref` is written on top of the resolved definition. -/
def overlayExceptRef (base : List (String × JVal)) (items : List (String × JVal)) :
    List (String × JVal) :=
  items.foldl (fun acc kv => if kv.1 = "$ref" then acc else dictSet acc kv.1 kv.2) base

/-- `pathlib.Path(dir) / file` for the relative file parts appearing in
the claims. -/
def joinPath (dir file : String) : String :=
  dir ++ "/" ++ file

/-- `root_schema["definitions"][def_name]` guarded by the two membership
tests the code performs.  A `definitions` entry that is not an object
makes the Python raise; no schema considered by the claims has one, and
the model treats it as a failed lookup. -/
def lookupDefinition (root : JVal) (name : String) : Option JVal :=
  match root with
  | JVal.obj items =>
    match jlookup items "definitions" with
    | some (JVal.obj defs) => jlookup defs name
    | _ => none
  | _ => none

/-- Resolve every value of an object, keeping keys and their order
(the `resolved[key] = self._resolve_refs(value, root_schema)` loop). -/
def resolveMany (f : JVal → Option JVal) : List (String × JVal) → Option (List (String × JVal))
  | [] => some []
  | (k, v) :: rest =>
    match f v, resolveMany f rest with
    | some v', some rest' => some ((k, v') :: rest')
    | _, _ => none

/-- Resolve every element of an array. -/
def resolveManyL (f : JVal → Option JVal) : List JVal → Option (List JVal)
  | [] => some []
  | x :: xs =>
    match f x, resolveManyL f xs with
    | some x', some xs' => some (x' :: xs')
    | _, _ => none

/-- One unfolding of `_resolve_refs(schema_data, root_schema)`.  The
continuation `f` stands for the recursive calls (`f root node`); `fs`
maps the full path of each existing external schema file to its parsed
content, and `schemaDir` is `self.schema_path.parent`, which the source
never rebinds.  Branches, top to bottom, mirror lines 70-143:
missing external file returns the node with a warning; an external
fragment `/definitions/NAME` is looked up in the external document and
resolved against that document as root, then merged; a non-object
resolved target, a missing definition, or an unrecognized fragment all
fall through to `return schema_data`; a fragmentless external reference
resolves the whole external document against itself; internal
`#/definitions/NAME` references mirror the same lookup-resolve-merge
shape against the current root; any other `$ref` value returns the node
unchanged; objects without `$ref` and arrays recurse structurally;
scalars pass through. -/
def resolveStep (f : JVal → JVal → Option JVal) (fs : List (String × JVal))
    (schemaDir : String) (root node : JVal) : Option JVal :=
  match node with
  | JVal.obj items =>
    match jlookup items "$ref" with
    | some (JVal.str refPath) =>
      if !pyStartswith refPath "#" then
        let parts := partitionHash refPath.data
        let filePath : String := ⟨parts.1⟩
        let defPath : String := ⟨parts.2⟩
        match jlookup fs (joinPath schemaDir filePath) with
        | none => some node
        | some externalSchema =>
          if defPath ≠ "" then
            if pyStartswith defPath "/definitions/" then
              match lookupDefinition externalSchema (pyReplace defPath "/definitions/" "") with
              | some defn =>
                match f externalSchema defn with
                | some (JVal.obj base) => some (JVal.obj (overlayExceptRef base items))
                | some _ => some node
                | none => none
              | none => some node
            else
              some node
          else
            f externalSchema externalSchema
      else if pyStartswith refPath "#/definitions/" then
        match lookupDefinition root (pyReplace refPath "#/definitions/" "") with
        | some defn =>
          match f root defn with
          | some (JVal.obj base) => some (JVal.obj (overlayExceptRef base items))
          | some _ => some node
          | none => none
        | none => some node
      else
        some node
    | some _ => some node
    | none => (resolveMany (f root) items).map JVal.obj
  | JVal.arr xs => (resolveManyL (f root) xs).map JVal.arr
  | other => some other

/-- `_resolve_refs`, made total by fuel: `none` means the recursion did
not finish within `fuel` steps (the source recurses without bound on
cyclic reference chains). -/
def resolveRefs (fs : List (String × JVal)) (schemaDir : String) :
    Nat → JVal → JVal → Option JVal
  | 0, _, _ => none
  | fuel + 1, root, node => resolveStep (resolveRefs fs schemaDir fuel) fs schemaDir root node

/-- `_process_default_value_path(value)`.  `packageName` is
`self.package_name`; Python tests it for truthiness, so `none` and
`some ""` both disable the rewrite. -/
def processDefaultValuePath (packageName : Option String) (value : JVal) : JVal :=
  match value, packageName with
  | JVal.str s, some pkg =>
    if (pkg != "") && !pyStartswith s "/" && !pyStartswith s "$(" &&
        (pyContains s "/" || pyEndswith s ".yaml" || pyEndswith s ".json" ||
         pyEndswith s ".pcd" || pyEndswith s ".onnx" || pyEndswith s ".xml") then
      JVal.str ("$(find-pkg-share " ++ pkg ++ ")/" ++ s)
    else
      value
  | _, _ => value

/-- The guard `prop_data.get("type") == "object" and "properties" in prop_data`. -/
def isTypeObjectWithProps (pItems : List (String × JVal)) : Bool :=
  (match jlookup pItems "type" with
   | some (JVal.str t) => t == "object"
   | _ => false) &&
  (jlookup pItems "properties").isSome

/-- Scan for `"properties" in xs` where `xs` came from a JSON array: the
Python `in` test compares the string against each element. -/
def containsStrElem (target : String) : List JVal → Bool
  | [] => false
  | JVal.str s :: rest => s == target || containsStrElem target rest
  | _ :: rest => containsStrElem target rest

/-- The `for prop_name, prop_data in properties_schema["properties"].items()`
loop of `_extract_defaults_from_properties`, with `f` standing for the
recursive call on a nested object property and `acc` for the `defaults`
dict built so far.  A property value that is not an object makes the
Python raise inside the loop (a `TypeError` at the `in` test or an
`AttributeError` at `.get`), which the per-file `try` in `process` turns
into a failure; the model reports that as `none`. -/
def extractLoop (f : JVal → Option (List (String × JVal))) (pkg : Option String) :
    List (String × JVal) → List (String × JVal) → Option (List (String × JVal))
  | [], acc => some acc
  | (name, propData) :: rest, acc =>
    match propData with
    | JVal.obj pItems =>
      match jlookup pItems "default" with
      | some d => extractLoop f pkg rest (dictSet acc name (processDefaultValuePath pkg d))
      | none =>
        if isTypeObjectWithProps pItems then
          match f (JVal.obj pItems) with
          | none => none
          | some [] => extractLoop f pkg rest acc
          | some nested => extractLoop f pkg rest (dictSet acc name (JVal.obj nested))
        else
          -- The source has a third branch for
          -- `prop_data.get("type") == "array" and "default" in prop_data`;
          -- it is unreachable here because the first branch already
          -- consumed any "default" key, so the iteration just continues.
          extractLoop f pkg rest acc
    | _ => none

/-- One unfolding of `_extract_defaults_from_properties(properties_schema)`.
An absent `properties` key yields the empty dict.  A non-object
`properties` value, and most non-object arguments, raise (modelled as
`none`); an array without a `"properties"` element and a string without
the substring `"properties"` skip the loop and yield the empty dict,
exactly as the Python `in` test does. -/
def extractStep (f : JVal → Option (List (String × JVal)))
    (pkg : Option String) (s : JVal) : Option (List (String × JVal)) :=
  match s with
  | JVal.obj items =>
    match jlookup items "properties" with
    | none => some []
    | some (JVal.obj props) => extractLoop f pkg props []
    | some _ => none
  | JVal.arr xs => if containsStrElem "properties" xs then none else some []
  | JVal.str st => if pyContains st "properties" then none else some []
  | _ => none

/-- `_extract_defaults_from_properties`, made total by fuel (the source
recursion descends one nested object property per call). -/
def extractFromProps (pkg : Option String) : Nat → JVal → Option (List (String × JVal))
  | 0, _ => none
  | fuel + 1, s => extractStep (extractFromProps pkg fuel) pkg s

/-- `success_count` of `main`: how many per-file `process()` calls
returned True.  `process` wraps the whole per-file pipeline in
`try/except`, so each file contributes exactly one boolean and a failing
file never aborts the loop. -/
def successCount (results : List Bool) : Nat :=
  results.count true

/-- The exit code of `main` (lines 245-272): 1 when the schema directory
does not exist, 1 when the glob over `*.schema.json` matched nothing,
1 when some file failed, and 0 (the implicit return) otherwise.
`results` lists the `process()` outcome of every matched file in order. -/
def mainExitCode (schemaDirExists : Bool) (results : List Bool) : Nat :=
  if !schemaDirExists then 1
  else if results.length = 0 then 1
  else if successCount results ≠ results.length then 1
  else 0

/-! Helper lemmas about the insertion-ordered dict operations. -/

theorem jlookup_dictSet_self (b : List (String × JVal)) (k : String) (v : JVal) :
    jlookup (dictSet b k v) k = some v := by
  induction b with
  | nil => simp [dictSet, jlookup]
  | cons hd tl ih =>
    obtain ⟨k', v'⟩ := hd
    by_cases h : k' = k
    · subst h
      simp [dictSet, jlookup]
    · simp [dictSet, jlookup, h, ih]

theorem jlookup_dictSet_ne (b : List (String × JVal)) (k k' : String) (v : JVal)
    (h : k' ≠ k) : jlookup (dictSet b k' v) k = jlookup b k := by
  induction b with
  | nil => simp [dictSet, jlookup, h]
  | cons hd tl ih =>
    obtain ⟨k'', v''⟩ := hd
    by_cases h2 : k'' = k'
    · subst h2
      simp [dictSet, jlookup, h]
    · simp [dictSet, jlookup, h2, ih]

theorem overlayExceptRef_cons (base : List (String × JVal)) (k' : String) (v' : JVal)
    (tl : List (String × JVal)) :
    overlayExceptRef base ((k', v') :: tl) =
      overlayExceptRef (if k' = "$ref" then base else dictSet base k' v') tl := rfl

/-- Keys that do not occur in the referencing node keep the value they
have in the resolved definition after the merge. -/
theorem overlay_lookup_notmem (items : List (String × JVal)) :
    ∀ base k, k ∉ items.map Prod.fst →
      jlookup (overlayExceptRef base items) k = jlookup base k := by
  induction items with
  | nil => intro base k _; rfl
  | cons hd tl ih =>
    intro base k h
    obtain ⟨k', v'⟩ := hd
    simp only [List.map_cons, List.mem_cons, not_or] at h
    obtain ⟨hk, htl⟩ := h
    rw [overlayExceptRef_cons]
    by_cases hr : k' = "$ref"
    · simp [hr, ih _ _ htl]
    · simp only [hr, if_neg hr, ite_false]
      rw [ih _ _ htl, jlookup_dictSet_ne]
      exact fun hc => hk (hc ▸ rfl)

/-- Keys of the referencing node other than `$ref` keep their local
value after the merge (local sibling keys win). -/
theorem overlay_lookup_local (items : List (String × JVal)) :
    ∀ base k v, (items.map Prod.fst).Nodup → k ≠ "$ref" →
      jlookup items k = some v →
      jlookup (overlayExceptRef base items) k = some v := by
  induction items with
  | nil => intro base k v _ _ h; simp [jlookup] at h
  | cons hd tl ih =>
    intro base k v hnd hkref hlook
    obtain ⟨k', v'⟩ := hd
    simp only [List.map_cons, List.nodup_cons] at hnd
    obtain ⟨hnotin, hndtl⟩ := hnd
    rw [overlayExceptRef_cons]
    by_cases heq : k' = k
    · subst heq
      simp only [jlookup, if_pos rfl] at hlook
      obtain rfl : v' = v := by injection hlook
      have hr : k' ≠ "$ref" := fun hc => hkref hc
      rw [if_neg hr, overlay_lookup_notmem _ _ _ hnotin, jlookup_dictSet_self]
    · simp only [jlookup, if_neg heq] at hlook
      by_cases hr : k' = "$ref"
      · rw [if_pos hr]
        exact ih base k v hndtl hkref hlook
      · rw [if_neg hr]
        exact ih _ k v hndtl hkref hlook

/-- `C1`: for an object node whose `$ref` names an internal definition
present in the root document `definitions` mapping, with the definition
resolving to an object, `_resolve_refs` returns the fully resolved
definition with every key of the referencing node except `$ref` written
on top of it; keys present in the node keep their local value (local
siblings win) and keys absent from the node keep the definition value. -/
theorem C1_internal_ref_merge
    (fs : List (String × JVal)) (dir : String) (fuel : Nat)
    (root : JVal) (items base : List (String × JVal))
    (refPath defName : String) (defn : JVal)
    (h1 : jlookup items "$ref" = some (JVal.str refPath))
    (h2 : pyStartswith refPath "#" = true)
    (h3 : pyStartswith refPath "#/definitions/" = true)
    (h4 : pyReplace refPath "#/definitions/" "" = defName)
    (h5 : lookupDefinition root defName = some defn)
    (h6 : resolveRefs fs dir fuel root defn = some (JVal.obj base))
    (hnd : (items.map Prod.fst).Nodup) :
    resolveRefs fs dir (fuel + 1) root (JVal.obj items) =
        some (JVal.obj (overlayExceptRef base items)) ∧
    (∀ k v, k ≠ "$ref" → jlookup items k = some v →
        jlookup (overlayExceptRef base items) k = some v) ∧
    (∀ k, k ∉ items.map Prod.fst →
        jlookup (overlayExceptRef base items) k = jlookup base k) := by
  refine ⟨?_, ?_, ?_⟩
  · show resolveStep (resolveRefs fs dir fuel) fs dir root (JVal.obj items) = _
    rw [resolveStep, h1]
    simp only [h2, h3, h4, h5, h6, Bool.not_true, Bool.false_eq_true, if_false, if_true]
  · intro k v hk hl
    exact overlay_lookup_local items base k v hnd hk hl
  · intro k hk
    exact overlay_lookup_notmem items base k hk

/-- Witness for `C1`: the spec example.  `{"$ref": "#/definitions/A",
"default": 5}` with `definitions.A = {"default": 1}` resolves to
`{"default": 5}`. -/
theorem C1_witness :
    resolveRefs [] "d" 3
        (JVal.obj [("definitions", JVal.obj [("A", JVal.obj [("default", JVal.num 1)])])])
        (JVal.obj [("$ref", JVal.str "#/definitions/A"), ("default", JVal.num 5)]) =
      some (JVal.obj [("default", JVal.num 5)]) ∧
    jlookup (overlayExceptRef [("default", JVal.num 1)]
        [("$ref", JVal.str "#/definitions/A"), ("default", JVal.num 5)]) "default" =
      some (JVal.num 5) := by
  have h := C1_internal_ref_merge [] "d" 2
    (JVal.obj [("definitions", JVal.obj [("A", JVal.obj [("default", JVal.num 1)])])])
    [("$ref", JVal.str "#/definitions/A"), ("default", JVal.num 5)]
    [("default", JVal.num 1)]
    "#/definitions/A" "A" (JVal.obj [("default", JVal.num 1)])
    rfl rfl rfl rfl rfl rfl (by decide)
  exact ⟨h.1, h.2.1 "default" (JVal.num 5) (by decide) rfl⟩

/-- A schema tree with no `$ref` key at any depth. -/
inductive RefFree : JVal → Prop where
  | obj : ∀ items, (∀ kv ∈ items, kv.1 ≠ "$ref") → (∀ kv ∈ items, RefFree kv.2) →
      RefFree (JVal.obj items)
  | arr : ∀ xs, (∀ x ∈ xs, RefFree x) → RefFree (JVal.arr xs)
  | str : ∀ s, RefFree (JVal.str s)
  | num : ∀ n, RefFree (JVal.num n)
  | boolean : ∀ b, RefFree (JVal.boolean b)
  | null : RefFree JVal.null

theorem jlookup_eq_none_of_ne (items : List (String × JVal)) (key : String)
    (h : ∀ kv ∈ items, kv.1 ≠ key) : jlookup items key = none := by
  induction items with
  | nil => rfl
  | cons hd tl ih =>
    obtain ⟨k, v⟩ := hd
    have hk : k ≠ key := h (k, v) (by simp)
    simp only [jlookup, if_neg hk]
    exact ih (fun kv hm => h kv (by simp [hm]))

theorem resolveMany_id (f : JVal → Option JVal)
    (hf : ∀ t r, RefFree t → f t = some r → r = t) :
    ∀ items items', (∀ kv ∈ items, RefFree kv.2) →
      resolveMany f items = some items' → items' = items := by
  intro items
  induction items with
  | nil =>
    intro items' _ h
    simp only [resolveMany] at h
    exact (Option.some.inj h).symm
  | cons hd tl ih =>
    intro items' hall h
    obtain ⟨k, v⟩ := hd
    simp only [resolveMany] at h
    cases hv : f v with
    | none => rw [hv] at h; simp at h
    | some v' =>
      cases hr : resolveMany f tl with
      | none => rw [hv, hr] at h; simp at h
      | some tl' =>
        rw [hv, hr] at h
        have hv' : v' = v := hf v v' (hall (k, v) (by simp)) hv
        have htl' : tl' = tl := ih tl' (fun kv hm => hall kv (by simp [hm])) hr
        rw [hv', htl'] at h
        exact (Option.some.inj h).symm

theorem resolveManyL_id (f : JVal → Option JVal)
    (hf : ∀ t r, RefFree t → f t = some r → r = t) :
    ∀ xs xs', (∀ x ∈ xs, RefFree x) →
      resolveManyL f xs = some xs' → xs' = xs := by
  intro xs
  induction xs with
  | nil =>
    intro xs' _ h
    simp only [resolveManyL] at h
    exact (Option.some.inj h).symm
  | cons x tl ih =>
    intro xs' hall h
    simp only [resolveManyL] at h
    cases hv : f x with
    | none => rw [hv] at h; simp at h
    | some x' =>
      cases hr : resolveManyL f tl with
      | none => rw [hv, hr] at h; simp at h
      | some tl' =>
        rw [hv, hr] at h
        have hv' : x' = x := hf x x' (hall x (by simp)) hv
        have htl' : tl' = tl := ih tl' (fun y hm => hall y (by simp [hm])) hr
        rw [hv', htl'] at h
        exact (Option.some.inj h).symm

theorem resolveRefs_refFree_id (fs : List (String × JVal)) (dir : String) :
    ∀ fuel root t r, RefFree t → resolveRefs fs dir fuel root t = some r → r = t := by
  intro fuel
  induction fuel with
  | zero =>
    intro root t r _ h
    simp [resolveRefs] at h
  | succ fuel ih =>
    intro root t r hfree hres
    have hres' : resolveStep (resolveRefs fs dir fuel) fs dir root t = some r := hres
    cases hfree with
    | obj items hkeys hvals =>
      have hnone : jlookup items "$ref" = none :=
        jlookup_eq_none_of_ne items "$ref" hkeys
      simp only [resolveStep, hnone] at hres'
      cases hm : resolveMany (resolveRefs fs dir fuel root) items with
      | none => rw [hm] at hres'; simp at hres'
      | some items' =>
        rw [hm] at hres'
        simp only [Option.map_some'] at hres'
        have heq : items' = items :=
          resolveMany_id _ (fun t r ht hr => ih root t r ht hr) items items' hvals hm
        rw [heq] at hres'
        exact (Option.some.inj hres').symm
    | arr xs hall =>
      simp only [resolveStep] at hres'
      cases hm : resolveManyL (resolveRefs fs dir fuel root) xs with
      | none => rw [hm] at hres'; simp at hres'
      | some xs' =>
        rw [hm] at hres'
        simp only [Option.map_some'] at hres'
        have heq : xs' = xs :=
          resolveManyL_id _ (fun t r ht hr => ih root t r ht hr) xs xs' hall hm
        rw [heq] at hres'
        exact (Option.some.inj hres').symm
    | str s =>
      simp only [resolveStep] at hres'
      exact (Option.some.inj hres').symm
    | num n =>
      simp only [resolveStep] at hres'
      exact (Option.some.inj hres').symm
    | boolean b =>
      simp only [resolveStep] at hres'
      exact (Option.some.inj hres').symm
    | null =>
      simp only [resolveStep] at hres'
      exact (Option.some.inj hres').symm

/-- `C2` fails as stated: here every `$ref` resolves (the definition
exists), yet the result still contains a `$ref` key, because the merge
copies sibling keys of the referencing node verbatim, without resolving
them. -/
theorem C2_counterexample :
    resolveRefs [] "d" 3
        (JVal.obj [("definitions", JVal.obj [("A", JVal.obj [("default", JVal.num 1)])])])
        (JVal.obj [("$ref", JVal.str "#/definitions/A"),
                   ("b", JVal.obj [("$ref", JVal.str "#/definitions/A")])]) =
      some (JVal.obj [("default", JVal.num 1),
                      ("b", JVal.obj [("$ref", JVal.str "#/definitions/A")])]) ∧
    ¬ RefFree (JVal.obj [("default", JVal.num 1),
                         ("b", JVal.obj [("$ref", JVal.str "#/definitions/A")])]) := by
  refine ⟨rfl, ?_⟩
  intro h
  cases h with
  | obj _ _ hvals =>
    have hb := hvals ("b", JVal.obj [("$ref", JVal.str "#/definitions/A")]) (by simp)
    cases hb with
    | obj _ hkeys2 _ =>
      exact hkeys2 ("$ref", JVal.str "#/definitions/A") (by simp) rfl

/-- `C2` (amended): `_resolve_refs` does not guarantee a `$ref`-free
result in general; what holds is that a tree already free of `$ref`
keys resolves (when the recursion finishes) to itself, and the result
is therefore `$ref`-free. -/
theorem C2_ref_free_preserved (fs : List (String × JVal)) (dir : String)
    (fuel : Nat) (root t r : JVal)
    (hfree : RefFree t) (hres : resolveRefs fs dir fuel root t = some r) :
    r = t ∧ RefFree r := by
  have h := resolveRefs_refFree_id fs dir fuel root t r hfree hres
  exact ⟨h, h ▸ hfree⟩

/-- Witness for `C2` (amended) at a concrete `$ref`-free tree. -/
theorem C2_witness :
    (JVal.obj [("a", JVal.num 1)] : JVal) = JVal.obj [("a", JVal.num 1)] ∧
    RefFree (JVal.obj [("a", JVal.num 1)]) := by
  have hfree : RefFree (JVal.obj [("a", JVal.num 1)]) := by
    refine RefFree.obj _ ?_ ?_
    · intro kv hm
      simp only [List.mem_singleton] at hm
      subst hm
      decide
    · intro kv hm
      simp only [List.mem_singleton] at hm
      subst hm
      exact RefFree.num 1
  exact C2_ref_free_preserved [] "d" 2 (JVal.obj []) (JVal.obj [("a", JVal.num 1)])
    (JVal.obj [("a", JVal.num 1)]) hfree rfl

/-- `C3` fails as stated: the root schema sits in `dir`, its reference
`sub/b.json` is loaded from `dir/sub/b.json`, and the reference
`c.json` inside that external document should — per the claim — be
loaded relative to the external document, i.e. from `dir/sub/c.json`,
which exists in the filesystem (second conjunct).  Instead the node
comes back unresolved, because the code consulted `dir/c.json`. -/
theorem C3_counterexample :
    resolveRefs
        [("dir/sub/b.json", JVal.obj [("$ref", JVal.str "c.json")]),
         ("dir/sub/c.json", JVal.obj [("x", JVal.num 1)])] "dir" 5
        (JVal.obj [])
        (JVal.obj [("$ref", JVal.str "sub/b.json")]) =
      some (JVal.obj [("$ref", JVal.str "c.json")]) ∧
    jlookup
        [("dir/sub/b.json", JVal.obj [("$ref", JVal.str "c.json")]),
         ("dir/sub/c.json", JVal.obj [("x", JVal.num 1)])]
        (joinPath "dir/sub" "c.json") =
      some (JVal.obj [("x", JVal.num 1)]) :=
  ⟨rfl, rfl⟩

/-- `C3` (amended): the base directory never moves.  Every external
reference, at any depth, is loaded from `schemaDir/file_part` where
`schemaDir` is the directory of the root schema file; a reference
inside an external document therefore consults the root directory and
is left unresolved when the file is absent there, no matter what exists
relative to the external document. -/
theorem C3_root_relative_external (fs : List (String × JVal)) (dir : String)
    (fuel : Nat) (root : JVal) (f r : String) (fp rp : List Char)
    (hf : pyStartswith f "#" = false)
    (hr : pyStartswith r "#" = false)
    (hpf : partitionHash f.data = (fp, []))
    (hpr : partitionHash r.data = (rp, []))
    (hext : jlookup fs (joinPath dir ⟨fp⟩) = some (JVal.obj [("$ref", JVal.str r)]))
    (hmiss : jlookup fs (joinPath dir ⟨rp⟩) = none) :
    resolveRefs fs dir (fuel + 2) root (JVal.obj [("$ref", JVal.str f)]) =
      some (JVal.obj [("$ref", JVal.str r)]) := by
  have step2 : resolveRefs fs dir (fuel + 1) (JVal.obj [("$ref", JVal.str r)])
      (JVal.obj [("$ref", JVal.str r)]) = some (JVal.obj [("$ref", JVal.str r)]) := by
    show resolveStep (resolveRefs fs dir fuel) fs dir _ _ = _
    rw [resolveStep]
    simp only [jlookup, if_pos rfl, hr, Bool.not_false, if_true, hpr, hmiss]
  show resolveStep (resolveRefs fs dir (fuel + 1)) fs dir root _ = _
  rw [resolveStep]
  simp only [jlookup, if_pos rfl, hf, Bool.not_false, if_true, hpf, hext]
  simpa using step2

/-- Witness for `C3` (amended) at the two-hop filesystem. -/
theorem C3_witness :
    resolveRefs
        [("dir/sub/b.json", JVal.obj [("$ref", JVal.str "c.json")]),
         ("dir/sub/c.json", JVal.obj [("x", JVal.num 1)])] "dir" 2
        (JVal.obj [])
        (JVal.obj [("$ref", JVal.str "sub/b.json")]) =
      some (JVal.obj [("$ref", JVal.str "c.json")]) :=
  C3_root_relative_external _ "dir" 0 (JVal.obj []) "sub/b.json" "c.json"
    "sub/b.json".data "c.json".data rfl rfl rfl rfl rfl rfl

/-- `C4` fails as stated: `definitions.A` is the scalar `5`, and the
claim says resolution returns the resolved target itself (`5`).  The
code instead falls through to `return schema_data`, handing back the
referencing node unchanged, `$ref` included. -/
theorem C4_counterexample :
    resolveRefs [] "d" 3
        (JVal.obj [("definitions", JVal.obj [("A", JVal.num 5)])])
        (JVal.obj [("$ref", JVal.str "#/definitions/A")]) =
      some (JVal.obj [("$ref", JVal.str "#/definitions/A")]) ∧
    (JVal.obj [("$ref", JVal.str "#/definitions/A")] : JVal) ≠ JVal.num 5 :=
  ⟨rfl, fun h => JVal.noConfusion h⟩

/-- `C4` (amended): when the named definition exists but resolves to a
non-object, the merge is skipped and `_resolve_refs` returns the
referencing node unchanged (with its `$ref` intact), not the resolved
target; this holds for internal references and for external references
with a `/definitions/NAME` fragment alike. -/
theorem C4_non_object_target_unchanged (fs : List (String × JVal)) (dir : String)
    (fuel : Nat) (root : JVal) (items : List (String × JVal)) :
    (∀ refPath defName defn resolved,
      jlookup items "$ref" = some (JVal.str refPath) →
      pyStartswith refPath "#" = true →
      pyStartswith refPath "#/definitions/" = true →
      pyReplace refPath "#/definitions/" "" = defName →
      lookupDefinition root defName = some defn →
      resolveRefs fs dir fuel root defn = some resolved →
      (∀ base, resolved ≠ JVal.obj base) →
      resolveRefs fs dir (fuel + 1) root (JVal.obj items) = some (JVal.obj items)) ∧
    (∀ refPath fp dp defName ext defn resolved,
      jlookup items "$ref" = some (JVal.str refPath) →
      pyStartswith refPath "#" = false →
      partitionHash refPath.data = (fp, dp) →
      (⟨dp⟩ : String) ≠ "" →
      jlookup fs (joinPath dir ⟨fp⟩) = some ext →
      pyStartswith ⟨dp⟩ "/definitions/" = true →
      pyReplace ⟨dp⟩ "/definitions/" "" = defName →
      lookupDefinition ext defName = some defn →
      resolveRefs fs dir fuel ext defn = some resolved →
      (∀ base, resolved ≠ JVal.obj base) →
      resolveRefs fs dir (fuel + 1) root (JVal.obj items) = some (JVal.obj items)) := by
  constructor
  · intro refPath defName defn resolved h1 h2 h3 h4 h5 h6 hno
    show resolveStep (resolveRefs fs dir fuel) fs dir root (JVal.obj items) = _
    rw [resolveStep, h1]
    cases resolved with
    | obj base => exact absurd rfl (hno base)
    | arr xs => simp only [h2, h3, h4, h5, h6, Bool.not_true, Bool.false_eq_true, if_false, if_true]
    | str s => simp only [h2, h3, h4, h5, h6, Bool.not_true, Bool.false_eq_true, if_false, if_true]
    | num n => simp only [h2, h3, h4, h5, h6, Bool.not_true, Bool.false_eq_true, if_false, if_true]
    | boolean b =>
      simp only [h2, h3, h4, h5, h6, Bool.not_true, Bool.false_eq_true, if_false, if_true]
    | null => simp only [h2, h3, h4, h5, h6, Bool.not_true, Bool.false_eq_true, if_false, if_true]
  · intro refPath fp dp defName ext defn resolved h1 h2 hp hdp hext hstart hrepl hdefn hres hno
    show resolveStep (resolveRefs fs dir fuel) fs dir root (JVal.obj items) = _
    rw [resolveStep, h1]
    cases resolved with
    | obj base => exact absurd rfl (hno base)
    | arr xs =>
      simp only [h2, hp, hext, hstart, hrepl, hdefn, hres, Bool.not_false, if_true, if_pos hdp]
    | str s =>
      simp only [h2, hp, hext, hstart, hrepl, hdefn, hres, Bool.not_false, if_true, if_pos hdp]
    | num n =>
      simp only [h2, hp, hext, hstart, hrepl, hdefn, hres, Bool.not_false, if_true, if_pos hdp]
    | boolean b =>
      simp only [h2, hp, hext, hstart, hrepl, hdefn, hres, Bool.not_false, if_true, if_pos hdp]
    | null =>
      simp only [h2, hp, hext, hstart, hrepl, hdefn, hres, Bool.not_false, if_true, if_pos hdp]

/-- Witness for `C4` (amended) at the scalar definition `definitions.A = 5`. -/
theorem C4_witness :
    resolveRefs [] "d" 2
        (JVal.obj [("definitions", JVal.obj [("A", JVal.num 5)])])
        (JVal.obj [("$ref", JVal.str "#/definitions/A")]) =
      some (JVal.obj [("$ref", JVal.str "#/definitions/A")]) :=
  (C4_non_object_target_unchanged [] "d" 1
      (JVal.obj [("definitions", JVal.obj [("A", JVal.num 5)])])
      [("$ref", JVal.str "#/definitions/A")]).1
    "#/definitions/A" "A" (JVal.num 5) (JVal.num 5)
    rfl rfl rfl rfl rfl rfl (fun _ h => JVal.noConfusion h)

/-- The path rewrite never builds an object: a default that comes back
as an object went in as that object. -/
theorem processDefault_obj_inv (pkg : Option String) (d : JVal) (o : List (String × JVal))
    (h : processDefaultValuePath pkg d = JVal.obj o) : d = JVal.obj o := by
  cases d with
  | obj items => simpa [processDefaultValuePath] using h
  | str s =>
    cases pkg with
    | none => exact absurd h (by simp [processDefaultValuePath])
    | some p =>
      simp only [processDefaultValuePath] at h
      split at h <;> exact JVal.noConfusion h
  | arr xs => simp [processDefaultValuePath] at h
  | num n => simp [processDefaultValuePath] at h
  | boolean b => simp [processDefaultValuePath] at h
  | null => simp [processDefaultValuePath] at h

/-- The path rewrite is the identity on every non-string value. -/
theorem processDefault_non_str (pkg : Option String) (d : JVal)
    (h : ∀ s, d ≠ JVal.str s) : processDefaultValuePath pkg d = d := by
  cases d with
  | str s => exact absurd rfl (h s)
  | obj items => rfl
  | arr xs => rfl
  | num n => rfl
  | boolean b => rfl
  | null => rfl

/-- An empty-object value in the mapping built by the extraction loop
either was already in the accumulator or traces back to a property of
the iterated list whose literal `default` is the empty object — never
to the recursion on a nested object property, whose result is only
stored when non-empty. -/
theorem extractLoop_empty_obj_source (f : JVal → Option (List (String × JVal)))
    (pkg : Option String) (name : String) :
    ∀ props acc m, extractLoop f pkg props acc = some m →
      jlookup m name = some (JVal.obj []) →
      jlookup acc name = some (JVal.obj []) ∨
      ∃ pItems, (name, JVal.obj pItems) ∈ props ∧
        jlookup pItems "default" = some (JVal.obj []) := by
  intro props
  induction props with
  | nil =>
    intro acc m h hm
    simp only [extractLoop] at h
    exact Or.inl (by rw [Option.some.inj h]; exact hm)
  | cons hd rest ih =>
    intro acc m h hm
    obtain ⟨n, propData⟩ := hd
    cases propData with
    | obj pItems =>
      simp only [extractLoop] at h
      cases hdef : jlookup pItems "default" with
      | some d =>
        rw [hdef] at h
        rcases ih _ _ h hm with hacc | ⟨pI, hmem, hd2⟩
        · by_cases hn : n = name
          · subst hn
            rw [jlookup_dictSet_self] at hacc
            have hobj : processDefaultValuePath pkg d = JVal.obj [] := Option.some.inj hacc
            have hd0 : d = JVal.obj [] := processDefault_obj_inv pkg d [] hobj
            exact Or.inr ⟨pItems, List.mem_cons_self _ _, hd0 ▸ hdef⟩
          · rw [jlookup_dictSet_ne _ _ _ _ hn] at hacc
            exact Or.inl hacc
        · exact Or.inr ⟨pI, List.mem_cons_of_mem _ hmem, hd2⟩
      | none =>
        rw [hdef] at h
        by_cases hobj : isTypeObjectWithProps pItems = true
        · rw [if_pos hobj] at h
          cases hf : f (JVal.obj pItems) with
          | none => rw [hf] at h; exact absurd h (by simp)
          | some nested =>
            rw [hf] at h
            cases nested with
            | nil =>
              rcases ih _ _ h hm with hacc | ⟨pI, hmem, hd2⟩
              · exact Or.inl hacc
              · exact Or.inr ⟨pI, List.mem_cons_of_mem _ hmem, hd2⟩
            | cons x xs =>
              rcases ih _ _ h hm with hacc | ⟨pI, hmem, hd2⟩
              · by_cases hn : n = name
                · subst hn
                  rw [jlookup_dictSet_self] at hacc
                  have := Option.some.inj hacc
                  simp at this
                · rw [jlookup_dictSet_ne _ _ _ _ hn] at hacc
                  exact Or.inl hacc
              · exact Or.inr ⟨pI, List.mem_cons_of_mem _ hmem, hd2⟩
        · rw [if_neg hobj] at h
          rcases ih _ _ h hm with hacc | ⟨pI, hmem, hd2⟩
          · exact Or.inl hacc
          · exact Or.inr ⟨pI, List.mem_cons_of_mem _ hmem, hd2⟩
    | arr xs => exact absurd h (by simp [extractLoop])
    | str st => exact absurd h (by simp [extractLoop])
    | num n' => exact absurd h (by simp [extractLoop])
    | boolean b => exact absurd h (by simp [extractLoop])
    | null => exact absurd h (by simp [extractLoop])

/-- `C5`: the extracted defaults mapping never contains a key whose
value is an empty nested mapping produced by recursion — an empty-object
value can only come from a literal empty-object `default`; a property
whose recursive extraction is empty is omitted entirely (pruning); a
property with a `default` key stores the default through the path
rewrite, which leaves arrays (and every other non-string) verbatim. -/
theorem C5_defaults_invariant :
    (∀ pkg fuel s m name, extractFromProps pkg fuel s = some m →
        jlookup m name = some (JVal.obj []) →
        ∃ items props pItems, s = JVal.obj items ∧
          jlookup items "properties" = some (JVal.obj props) ∧
          (name, JVal.obj pItems) ∈ props ∧
          jlookup pItems "default" = some (JVal.obj [])) ∧
    (∀ f pkg name pItems rest acc,
        jlookup pItems "default" = none →
        isTypeObjectWithProps pItems = true →
        f (JVal.obj pItems) = some [] →
        extractLoop f pkg ((name, JVal.obj pItems) :: rest) acc =
          extractLoop f pkg rest acc) ∧
    (∀ f pkg name pItems d rest acc,
        jlookup pItems "default" = some d →
        extractLoop f pkg ((name, JVal.obj pItems) :: rest) acc =
          extractLoop f pkg rest (dictSet acc name (processDefaultValuePath pkg d))) ∧
    (∀ pkg xs, processDefaultValuePath pkg (JVal.arr xs) = JVal.arr xs) ∧
    (∀ pkg d, (∀ s, d ≠ JVal.str s) → processDefaultValuePath pkg d = d) := by
  refine ⟨?_, ?_, ?_, fun pkg xs => rfl, processDefault_non_str⟩
  · intro pkg fuel s m name h hm
    cases fuel with
    | zero => exact absurd h (by simp [extractFromProps])
    | succ fuel =>
      cases s with
      | obj items =>
        simp only [extractFromProps, extractStep] at h
        cases hp : jlookup items "properties" with
        | none =>
          rw [hp] at h
          rw [← Option.some.inj h] at hm
          exact absurd hm (by simp [jlookup])
        | some pv =>
          rw [hp] at h
          cases pv with
          | obj props =>
            rcases extractLoop_empty_obj_source _ pkg name props [] m h hm with
              hacc | ⟨pI, hmem, hd2⟩
            · exact absurd hacc (by simp [jlookup])
            · exact ⟨items, props, pI, rfl, hp, hmem, hd2⟩
          | arr xs => exact absurd h (by simp)
          | str st => exact absurd h (by simp)
          | num n => exact absurd h (by simp)
          | boolean b => exact absurd h (by simp)
          | null => exact absurd h (by simp)
      | arr xs =>
        simp only [extractFromProps, extractStep] at h
        by_cases hc : containsStrElem "properties" xs = true
        · rw [if_pos hc] at h
          exact absurd h (by simp)
        · rw [if_neg hc] at h
          rw [← Option.some.inj h] at hm
          exact absurd hm (by simp [jlookup])
      | str st =>
        simp only [extractFromProps, extractStep] at h
        by_cases hc : pyContains st "properties" = true
        · rw [if_pos hc] at h
          exact absurd h (by simp)
        · rw [if_neg hc] at h
          rw [← Option.some.inj h] at hm
          exact absurd hm (by simp [jlookup])
      | num n => exact absurd h (by simp [extractFromProps, extractStep])
      | boolean b => exact absurd h (by simp [extractFromProps, extractStep])
      | null => exact absurd h (by simp [extractFromProps, extractStep])
  · intro f pkg name pItems rest acc hdef hobj hf
    simp only [extractLoop, hdef, if_pos hobj, hf]
  · intro f pkg name pItems d rest acc hdef
    simp only [extractLoop, hdef]

/-- Witness for `C5`: an empty-object default is kept (first conjunct,
tracing it back to the literal default), while a nested object property
with an empty recursive extraction is pruned (second conjunct). -/
theorem C5_witness :
    (∃ items props pItems,
        (JVal.obj [("properties", JVal.obj [("a", JVal.obj [("default", JVal.obj [])])])] : JVal) =
          JVal.obj items ∧
        jlookup items "properties" = some (JVal.obj props) ∧
        ("a", JVal.obj pItems) ∈ props ∧
        jlookup pItems "default" = some (JVal.obj [])) ∧
    extractLoop (extractFromProps none 1) none
        [("empty", JVal.obj [("type", JVal.str "object"), ("properties", JVal.obj [])])] [] =
      some [] := by
  constructor
  · exact C5_defaults_invariant.1 none 2
      (JVal.obj [("properties", JVal.obj [("a", JVal.obj [("default", JVal.obj [])])])])
      [("a", JVal.obj [])] "a" rfl rfl
  · have h := C5_defaults_invariant.2.1 (extractFromProps none 1) none "empty"
      [("type", JVal.str "object"), ("properties", JVal.obj [])] [] [] rfl rfl rfl
    simpa [extractLoop] using h

/-- Any string the rewrite produces starts with the two characters
`$(`, which is exactly what the gate excludes. -/
theorem pyStartswith_rewritten (pkg s : String) :
    pyStartswith ("$(find-pkg-share " ++ pkg ++ ")/" ++ s) "$(" = true := by
  show List.isPrefixOf "$(".data ("$(find-pkg-share " ++ pkg ++ ")/" ++ s).data = true
  rw [String.data_append, String.data_append, String.data_append]
  rw [show ("$(find-pkg-share ".data) = '$' :: '(' :: "find-pkg-share ".data from rfl]
  simp [List.isPrefixOf]

/-- `C6`: the path rewrite returns
`$(find-pkg-share pkg)/value` exactly when the package name is provided
and non-empty, the value is a string not starting with `/` nor `$(`,
and the value contains a `/` or ends with one of the five extensions;
in every other case the value comes back unchanged, and non-strings are
never modified. -/
theorem C6_rewrite_gate (pkgOpt : Option String) (v : JVal) :
    (∀ pkg s, pkgOpt = some pkg → v = JVal.str s →
        pkg ≠ "" → pyStartswith s "/" = false → pyStartswith s "$(" = false →
        (pyContains s "/" = true ∨ pyEndswith s ".yaml" = true ∨
         pyEndswith s ".json" = true ∨ pyEndswith s ".pcd" = true ∨
         pyEndswith s ".onnx" = true ∨ pyEndswith s ".xml" = true) →
        processDefaultValuePath pkgOpt v =
          JVal.str ("$(find-pkg-share " ++ pkg ++ ")/" ++ s)) ∧
    (∀ pkg s, pkgOpt = some pkg → v = JVal.str s →
        ¬(pkg ≠ "" ∧ pyStartswith s "/" = false ∧ pyStartswith s "$(" = false ∧
          (pyContains s "/" = true ∨ pyEndswith s ".yaml" = true ∨
           pyEndswith s ".json" = true ∨ pyEndswith s ".pcd" = true ∨
           pyEndswith s ".onnx" = true ∨ pyEndswith s ".xml" = true)) →
        processDefaultValuePath pkgOpt v = v) ∧
    (pkgOpt = none → processDefaultValuePath pkgOpt v = v) ∧
    ((∀ s, v ≠ JVal.str s) → processDefaultValuePath pkgOpt v = v) ∧
    (∀ pkg s, pkgOpt = some pkg → v = JVal.str s →
        processDefaultValuePath pkgOpt v =
          JVal.str ("$(find-pkg-share " ++ pkg ++ ")/" ++ s) →
        (pkg ≠ "" ∧ pyStartswith s "/" = false ∧ pyStartswith s "$(" = false ∧
          (pyContains s "/" = true ∨ pyEndswith s ".yaml" = true ∨
           pyEndswith s ".json" = true ∨ pyEndswith s ".pcd" = true ∨
           pyEndswith s ".onnx" = true ∨ pyEndswith s ".xml" = true))) := by
  refine ⟨?_, ?_, ?_, fun h => processDefault_non_str pkgOpt v h, ?_⟩
  · intro pkg s hpkg hv hne h1 h2 h3
    subst hpkg; subst hv
    have hg : ((pkg != "") && !pyStartswith s "/" && !pyStartswith s "$(" &&
        (pyContains s "/" || pyEndswith s ".yaml" || pyEndswith s ".json" ||
         pyEndswith s ".pcd" || pyEndswith s ".onnx" || pyEndswith s ".xml")) = true := by
      simp only [Bool.and_eq_true, Bool.or_eq_true, Bool.not_eq_true', bne_iff_ne, ne_eq]
      exact ⟨⟨⟨hne, h1⟩, h2⟩, by tauto⟩
    simp only [processDefaultValuePath, hg, if_true]
  · intro pkg s hpkg hv hnc
    subst hpkg; subst hv
    cases hg : ((pkg != "") && !pyStartswith s "/" && !pyStartswith s "$(" &&
        (pyContains s "/" || pyEndswith s ".yaml" || pyEndswith s ".json" ||
         pyEndswith s ".pcd" || pyEndswith s ".onnx" || pyEndswith s ".xml")) with
    | false => simp only [processDefaultValuePath, hg, Bool.false_eq_true, if_false]
    | true =>
      exfalso
      apply hnc
      simp only [Bool.and_eq_true, Bool.or_eq_true, Bool.not_eq_true', bne_iff_ne, ne_eq] at hg
      exact ⟨hg.1.1.1, hg.1.1.2, hg.1.2, by tauto⟩
  · intro hnone
    subst hnone
    cases v <;> rfl
  · intro pkg s hpkg hv hres
    subst hpkg; subst hv
    cases hg : ((pkg != "") && !pyStartswith s "/" && !pyStartswith s "$(" &&
        (pyContains s "/" || pyEndswith s ".yaml" || pyEndswith s ".json" ||
         pyEndswith s ".pcd" || pyEndswith s ".onnx" || pyEndswith s ".xml")) with
    | true =>
      simp only [Bool.and_eq_true, Bool.or_eq_true, Bool.not_eq_true', bne_iff_ne, ne_eq] at hg
      exact ⟨hg.1.1.1, hg.1.1.2, hg.1.2, by tauto⟩
    | false =>
      exfalso
      simp only [processDefaultValuePath, hg, Bool.false_eq_true, if_false] at hres
      have heq : s = "$(find-pkg-share " ++ pkg ++ ")/" ++ s := by
        injection hres
      have hlen : s.length = ("$(find-pkg-share " ++ pkg ++ ")/" ++ s).length := by
        conv_lhs => rw [heq]
      rw [String.length_append, String.length_append, String.length_append] at hlen
      have h17 : ("$(find-pkg-share " : String).length = 17 := rfl
      have h2 : (")/" : String).length = 2 := rfl
      omega

/-- Witness for `C6` at the spec example
`demo_pkg` and `config/a.yaml`. -/
theorem C6_witness :
    processDefaultValuePath (some "demo_pkg") (JVal.str "config/a.yaml") =
      JVal.str "$(find-pkg-share demo_pkg)/config/a.yaml" :=
  (C6_rewrite_gate (some "demo_pkg") (JVal.str "config/a.yaml")).1
    "demo_pkg" "config/a.yaml" rfl rfl (by decide) rfl rfl (Or.inl rfl)

/-- `C9`: the path rewrite is idempotent: a rewritten string starts with
`$(` and therefore fails the gate on the second application, and an
unchanged value goes through the same branch twice. -/
theorem C9_rewrite_idempotent (pkgOpt : Option String) (v : JVal) :
    processDefaultValuePath pkgOpt (processDefaultValuePath pkgOpt v) =
      processDefaultValuePath pkgOpt v := by
  cases v with
  | str s =>
    cases pkgOpt with
    | none => rfl
    | some pkg =>
      cases hg : ((pkg != "") && !pyStartswith s "/" && !pyStartswith s "$(" &&
          (pyContains s "/" || pyEndswith s ".yaml" || pyEndswith s ".json" ||
           pyEndswith s ".pcd" || pyEndswith s ".onnx" || pyEndswith s ".xml")) with
      | false => simp only [processDefaultValuePath, hg, Bool.false_eq_true, if_false]
      | true =>
        simp only [processDefaultValuePath, hg, if_true]
        rw [pyStartswith_rewritten pkg s]
        simp
  | obj items => rfl
  | arr xs => rfl
  | num n => rfl
  | boolean b => rfl
  | null => rfl

/-- `C7` fails as stated: the unresolved node is returned unchanged
(first conjunct) and carries no literal `default` key (second
conjunct), yet the property containing it does contribute an entry to
the extracted defaults (third conjunct), because the node also carries
`type: "object"` and `properties` siblings and extraction recurses into
them (lines 176-179). -/
theorem C7_counterexample :
    resolveRefs [] "cfg" 1 (JVal.obj [])
        (JVal.obj [("$ref", JVal.str "missing.json"), ("type", JVal.str "object"),
                   ("properties", JVal.obj [("x", JVal.obj [("default", JVal.num 1)])])]) =
      some (JVal.obj [("$ref", JVal.str "missing.json"), ("type", JVal.str "object"),
                      ("properties", JVal.obj [("x", JVal.obj [("default", JVal.num 1)])])]) ∧
    jlookup [("$ref", JVal.str "missing.json"), ("type", JVal.str "object"),
             ("properties", JVal.obj [("x", JVal.obj [("default", JVal.num 1)])])]
        "default" = none ∧
    extractLoop (extractFromProps none 1) none
        [("p", JVal.obj [("$ref", JVal.str "missing.json"), ("type", JVal.str "object"),
                         ("properties", JVal.obj [("x", JVal.obj [("default", JVal.num 1)])])])]
        [] =
      some [("p", JVal.obj [("x", JVal.num 1)])] :=
  ⟨rfl, rfl, rfl⟩

/-- `C7` (amended): a `$ref` to an external file absent from the
filesystem makes `_resolve_refs` return the node unchanged after a
warning, never raising (first conjunct); the property containing the
unresolved node contributes no entry to the extracted defaults provided
the node carries no literal `default` key and also lacks the
object-with-properties shape (second conjunct) — with `type: "object"`
and `properties` siblings present, extraction recurses into them and
may contribute entries, as the counterexample shows. -/
theorem C7_missing_external :
    (∀ fs dir fuel root items refPath,
        jlookup items "$ref" = some (JVal.str refPath) →
        pyStartswith refPath "#" = false →
        jlookup fs (joinPath dir ⟨(partitionHash refPath.data).1⟩) = none →
        resolveRefs fs dir (fuel + 1) root (JVal.obj items) = some (JVal.obj items)) ∧
    (∀ f pkg name pItems rest acc refPath,
        jlookup pItems "$ref" = some (JVal.str refPath) →
        jlookup pItems "default" = none →
        isTypeObjectWithProps pItems = false →
        extractLoop f pkg ((name, JVal.obj pItems) :: rest) acc =
          extractLoop f pkg rest acc) := by
  constructor
  · intro fs dir fuel root items refPath h1 h2 h3
    show resolveStep (resolveRefs fs dir fuel) fs dir root (JVal.obj items) = _
    rw [resolveStep, h1]
    simp only [h2, Bool.not_false, if_true, h3]
  · intro f pkg name pItems rest acc refPath _ hdef hobj
    simp only [extractLoop, hdef, hobj, Bool.false_eq_true, if_false]

/-- Witness for `C7`: the unresolved node keeps its `$ref` and the
surrounding property yields no default. -/
theorem C7_witness :
    resolveRefs [] "cfg" 1 (JVal.obj [])
        (JVal.obj [("$ref", JVal.str "missing.json")]) =
      some (JVal.obj [("$ref", JVal.str "missing.json")]) ∧
    extractLoop (extractFromProps none 1) none
        [("p", JVal.obj [("$ref", JVal.str "missing.json")])] [] = some [] := by
  constructor
  · exact C7_missing_external.1 [] "cfg" 0 (JVal.obj [])
      [("$ref", JVal.str "missing.json")] "missing.json" rfl rfl rfl
  · have h := C7_missing_external.2 (extractFromProps none 1) none "p"
      [("$ref", JVal.str "missing.json")] [] [] "missing.json" rfl rfl rfl
    simpa [extractLoop] using h

/-- `C10`: an object node whose `$ref` key holds a non-string value is
returned exactly unchanged — no error, and none of the other values of
the node are resolved. -/
theorem C10_nonstring_ref (fs : List (String × JVal)) (dir : String)
    (fuel : Nat) (root : JVal) (items : List (String × JVal)) (v : JVal)
    (h1 : jlookup items "$ref" = some v)
    (h2 : ∀ s, v ≠ JVal.str s) :
    resolveRefs fs dir (fuel + 1) root (JVal.obj items) = some (JVal.obj items) := by
  show resolveStep (resolveRefs fs dir fuel) fs dir root (JVal.obj items) = _
  rw [resolveStep, h1]
  cases v with
  | str s => exact absurd rfl (h2 s)
  | obj o => rfl
  | arr xs => rfl
  | num n => rfl
  | boolean b => rfl
  | null => rfl

/-- Witness for `C10`: a numeric `$ref` freezes the node even though a
sibling value holds a reference that would otherwise resolve. -/
theorem C10_witness :
    resolveRefs [] "d" 4
        (JVal.obj [("definitions", JVal.obj [("A", JVal.obj [("default", JVal.num 1)])])])
        (JVal.obj [("$ref", JVal.num 1),
                   ("x", JVal.obj [("$ref", JVal.str "#/definitions/A")])]) =
      some (JVal.obj [("$ref", JVal.num 1),
                      ("x", JVal.obj [("$ref", JVal.str "#/definitions/A")])]) :=
  C10_nonstring_ref [] "d" 3
    (JVal.obj [("definitions", JVal.obj [("A", JVal.obj [("default", JVal.num 1)])])])
    [("$ref", JVal.num 1), ("x", JVal.obj [("$ref", JVal.str "#/definitions/A")])]
    (JVal.num 1) rfl (fun _ h => JVal.noConfusion h)

/-- `C8`: the run exits 0 exactly when the schema directory exists, at
least one `*.schema.json` file was matched, and every matched file
processed successfully; each file contributes one boolean outcome
(`process` catches all its exceptions), so one malformed file among
three good ones gives three successes and exit code 1. -/
theorem C8_exit_code :
    (∀ (dirExists : Bool) (results : List Bool),
        mainExitCode dirExists results = 0 ↔
          dirExists = true ∧ results ≠ [] ∧ ∀ r ∈ results, r = true) ∧
    successCount [true, true, true, false] = 3 ∧
    mainExitCode true [true, true, true, false] = 1 := by
  refine ⟨?_, rfl, rfl⟩
  intro dirExists results
  cases dirExists with
  | false => simp [mainExitCode]
  | true =>
    cases results with
    | nil => simp [mainExitCode]
    | cons r rs =>
      by_cases hc : List.count true (r :: rs) = (r :: rs).length
      · have h0 : mainExitCode true (r :: rs) = 0 := by
          simp [mainExitCode, successCount, hc]
        rw [h0]
        constructor
        · intro _
          exact ⟨rfl, by simp, fun x hx => (List.count_eq_length.mp hc x hx).symm⟩
        · intro _
          rfl
      · have h1 : mainExitCode true (r :: rs) = 1 := by
          simp only [List.length_cons] at hc
          simp [mainExitCode, successCount, hc]
        rw [h1]
        constructor
        · intro h
          exact absurd h one_ne_zero
        · rintro ⟨-, -, hall⟩
          exact absurd (List.count_eq_length.mpr (fun b hb => (hall b hb).symm)) hc

/-- Witness for `C8`: three successes and one failure exit with code 1;
two successes and no failure exit with code 0. -/
theorem C8_witness :
    mainExitCode true [true, true] = 0 ∧ mainExitCode true [true, true, true, false] ≠ 0 := by
  constructor
  · exact (C8_exit_code.1 true [true, true]).mpr ⟨rfl, by simp, by simp⟩
  · intro h
    have := (C8_exit_code.1 true [true, true, true, false]).mp h
    have hf := this.2.2 false (by simp)
    exact Bool.false_ne_true hf

end ParameterProcess
